import Mathlib

/-!
# Verification of the Bitget-SDK trading scripts

Shallow embedding of the signal evaluation, risk-level computation,
position/order reconciliation and order-placement pipeline of the
repository's scripts (src/MASTER.js, src/server.js, src/test.js,
src/unnamed/part_001, src/unnamed/part_002,
src/MarketCipherBitgetSDK.js), together with proofs of the spec's
testable properties.

Modelling conventions:
* JavaScript numbers are modelled as rationals (`ℚ`); division by zero
  yields `0` in `ℚ` where JavaScript would produce `NaN`/`Infinity` —
  no claim proved here depends on that difference, and each concrete
  evaluation used below avoids division by zero.
* JavaScript array indexing that can yield `undefined`, and the `null`
  entries the indicator code stores in its arrays, are modelled with
  `Option`/a small `JNum` type; a statement that throws a `TypeError`
  (reading a property of `undefined`) is modelled by the enclosing
  function returning `none`.
* The exchange (positions, pending orders, and which REST calls fail)
  is an explicit state/environment record; every REST call the scripts
  make is recorded in a trace of `TradeAction`s.
-/

/-- One OHLCV candle, as produced by `fetchCandleData`:
`[timestamp, open, high, low, close, volume]` (indices 0..5). -/
structure Candle where
  timestamp : ℤ
  open_ : ℚ
  high : ℚ
  low : ℚ
  close : ℚ
  volume : ℚ
deriving DecidableEq, Repr

/-- A JavaScript number-ish value as it flows out of the indicator
arrays: a real number, `null` (stored by the ATR/RSI code for warm-up
indices), `undefined` (indexing past the end of an array), or `NaN`
(arithmetic on `undefined`). -/
inductive JNum where
  | num (q : ℚ)
  | jnull
  | undef
  | nan
deriving DecidableEq, Repr

/-- JS `x < c` for a possibly-null/undefined left operand: `null`
coerces to `0`, while `undefined`/`NaN` comparisons are always false. -/
def JNum.ltC (x : JNum) (c : ℚ) : Bool :=
  match x with
  | .num q => decide (q < c)
  | .jnull => decide ((0 : ℚ) < c)
  | .undef => false
  | .nan => false

/-- JS `x > c` for a possibly-null/undefined left operand. -/
def JNum.gtC (x : JNum) (c : ℚ) : Bool :=
  match x with
  | .num q => decide (c < q)
  | .jnull => decide (c < (0 : ℚ))
  | .undef => false
  | .nan => false

/-- JS `x * c`: `null` coerces to `0`, `undefined` gives `NaN`. -/
def JNum.mulC (x : JNum) (c : ℚ) : JNum :=
  match x with
  | .num q => .num (q * c)
  | .jnull => .num 0
  | .undef => .nan
  | .nan => .nan

/-- Reading the last element of a list of number-or-null entries, as
`arr[arr.length - 1]` does: `undefined` when the array is empty. -/
def lastJ (xs : List (Option ℚ)) : JNum :=
  match xs.getLast? with
  | none => .undef
  | some none => .jnull
  | some (some q) => .num q

/-- `Math.round` as JavaScript defines it: half-up towards `+∞`. -/
def jsRound (q : ℚ) : ℤ := ⌊q + 1 / 2⌋

/-! ## Indicators (src/MASTER.js lines 88-112, src/unnamed/part_001
lines 70-134 / src/unnamed/part_002 lines 100-164) -/

/-- Helper for `calculateMoneyFlow`: maps each element of the tail,
comparing it with its predecessor (`value > hlc3[index - 1] ? 1 : -1`). -/
def moneyFlowTail : ℚ → List ℚ → List ℚ
  | _, [] => []
  | prev, y :: ys => (if prev < y then 1 else -1) :: moneyFlowTail y ys

/-- `calculateMoneyFlow` (src/MASTER.js lines 89-93, identical in
src/MarketCipherBitgetSDK.js lines 86-90): index 0 maps to 0, index
`i > 0` maps to 1 if `hlc3[i] > hlc3[i-1]` and -1 otherwise. -/
def calculateMoneyFlow : List ℚ → List ℚ
  | [] => []
  | x :: xs => 0 :: moneyFlowTail x xs

/-- `calculateStochasticRSI` (src/MASTER.js lines 96-98):
`(close - open) / (high - open)` per candle. -/
def calculateStochasticRSI (candles : List Candle) : List ℚ :=
  candles.map (fun c => (c.close - c.open_) / (c.high - c.open_))

/-- Helper for `calculateEMA`: the loop appending
`(close - prevEma) * multiplier + prevEma` for each remaining close. -/
def emaLoop (multiplier : ℚ) : ℚ → List ℚ → List ℚ
  | _, [] => []
  | prev, c :: cs =>
    let v := (c - prev) * multiplier + prev
    v :: emaLoop multiplier v cs

/-- `calculateEMA` (src/MASTER.js lines 101-112, identical in
src/unnamed/part_001 lines 70-82): seed with the SMA of the first
`period` closes (sum divided by `period`, even when fewer candles
exist), then fold the remaining closes. The result is never empty. -/
def calculateEMA (candles : List Candle) (period : ℕ) : List ℚ :=
  let multiplier : ℚ := 2 / (period + 1)
  let sma : ℚ := (((candles.take period).map Candle.close).sum) / period
  sma :: emaLoop multiplier sma ((candles.drop period).map Candle.close)

/-- Helper for `calculateVWAP`: threads the cumulative volume and
cumulative price·volume through the candle list. -/
def vwapLoop (cumVolume cumPV : ℚ) : List Candle → List ℚ
  | [] => []
  | c :: cs =>
    let typicalPrice := (c.high + c.low + c.close) / 3
    let cumVolume' := cumVolume + c.volume
    let cumPV' := cumPV + typicalPrice * c.volume
    (cumPV' / cumVolume') :: vwapLoop cumVolume' cumPV' cs

/-- `calculateVWAP` (src/unnamed/part_001 lines 84-94). -/
def calculateVWAP (candles : List Candle) : List ℚ :=
  vwapLoop 0 0 candles

/-- Helper for `calculateATR`: true range of each candle
(index 0: high - low; otherwise max of the three ranges against the
previous close). -/
def trueRangesTail : Candle → List Candle → List ℚ
  | _, [] => []
  | prev, c :: cs =>
    max (c.high - c.low) (max |c.high - prev.close| |c.low - prev.close|) ::
      trueRangesTail c cs

/-- The `trueRanges` array of `calculateATR`. -/
def trueRanges : List Candle → List ℚ
  | [] => []
  | c :: cs => (c.high - c.low) :: trueRangesTail c cs

/-- `calculateATR` (src/unnamed/part_001 lines 96-112): `null` for the
first `period - 1` indices, then the average of the trailing `period`
true ranges (`slice(i - period + 1, i + 1)`). -/
def calculateATR (candles : List Candle) (period : ℕ) : List (Option ℚ) :=
  let tr := trueRanges candles
  (List.range tr.length).map (fun i =>
    if i < period - 1 then none
    else some ((((tr.drop (i + 1 - period)).take period).sum) / period))

/-- The `changes` of `calculateRSI`: `candles[i].close - candles[i-1].close`
for `i ≥ 1`. -/
def closeChanges (candles : List Candle) : List ℚ :=
  List.zipWith (fun cur prev => cur - prev)
    ((candles.map Candle.close).drop 1) (candles.map Candle.close)

/-- `calculateRSI` (src/unnamed/part_001 lines 114-134): gains/losses
per change, seed averages over the first `period` entries, `null` for
the first `period - 1` indices, and
`100 - 100 / (1 + (avgGain + gains[i]) / (avgLoss + losses[i]))` after. -/
def calculateRSI (candles : List Candle) (period : ℕ) : List (Option ℚ) :=
  let gains := (closeChanges candles).map (fun d => max d 0)
  let losses := (closeChanges candles).map (fun d => |min d 0|)
  let avgGain := ((gains.take period).sum) / period
  let avgLoss := ((losses.take period).sum) / period
  (List.range gains.length).map (fun i =>
    if i < period - 1 then none
    else
      let currentGain := avgGain + gains.getD i 0
      let currentLoss := avgLoss + losses.getD i 0
      let rs := currentGain / currentLoss
      some (100 - 100 / (1 + rs)))

/-! ## Signal evaluators -/

/-- Result record of `calculateMarketCipherSignals`. -/
structure MCSignals where
  buySignal : Bool
  sellSignal : Bool
  latestPrice : ℚ
deriving DecidableEq, Repr

/-- `calculateMarketCipherSignals` (src/MASTER.js lines 72-86). On an
empty candle list the JS code throws a `TypeError` evaluating
`candles[candles.length - 1][4]` (modelled by `none`); otherwise all
the derived series are non-empty and their last entries are numbers. -/
def calculateMarketCipherSignals (candles : List Candle) : Option MCSignals :=
  let hlc3 := candles.map (fun c => (c.open_ + c.high + c.low) / 3)
  let moneyFlow := calculateMoneyFlow hlc3
  let stochasticRSI := calculateStochasticRSI candles
  let ema := calculateEMA candles 9
  match candles.getLast? with
  | none => none
  | some lastCandle =>
    let mf := moneyFlow.getLastD 0
    let srsi := stochasticRSI.getLastD 0
    let e := ema.getLastD 0
    some
      { buySignal := decide (0 < mf) && decide (srsi < 1 / 5) && decide (e < lastCandle.close)
        sellSignal := decide (mf < 0) && decide (4 / 5 < srsi) && decide (lastCandle.close < e)
        latestPrice := lastCandle.close }

/-- Result record of `calculateTradingSignals`. -/
structure TSignals where
  buySignal : Bool
  sellSignal : Bool
  stopLoss : JNum
  takeProfit : JNum
  latestPrice : ℚ
deriving DecidableEq, Repr

/-- `calculateTradingSignals` (src/unnamed/part_001 lines 138-172,
identical in src/unnamed/part_002 lines 168-202). On an empty candle
list the JS code throws a `TypeError` evaluating
`candles[candles.length - 1][4]` (modelled by `none`). The last ATR
and RSI entries can be `null` (warm-up) or `undefined` (list empty),
hence the `JNum` coercion semantics in the comparisons and in
`stopLoss = latestATR * 1.5`. -/
def calculateTradingSignals (candles : List Candle) : Option TSignals :=
  let ema9 := calculateEMA candles 9
  let ema21 := calculateEMA candles 21
  let vwap := calculateVWAP candles
  let atr := calculateATR candles 14
  let rsi := calculateRSI candles 14
  match candles.getLast? with
  | none => none
  | some lastCandle =>
    let latestPrice := lastCandle.close
    let latestATR := lastJ atr
    let latestRSI := lastJ rsi
    let latestVWAP := vwap.getLastD 0
    let e9 := ema9.getLastD 0
    let e21 := ema21.getLastD 0
    let stopLoss := latestATR.mulC (3 / 2)
    let takeProfit := stopLoss.mulC 2
    some
      { buySignal := decide (e9 < latestPrice) && decide (e21 < e9) &&
          latestRSI.ltC 70 && decide (latestVWAP < latestPrice)
        sellSignal := decide (latestPrice < e9) && decide (e9 < e21) &&
          latestRSI.gtC 30 && decide (latestPrice < latestVWAP)
        stopLoss := stopLoss
        takeProfit := takeProfit
        latestPrice := latestPrice }

/-! ## Risk levels (src/unnamed/part_001 lines 337-365) -/

/-- `stopLossPercentage` (src/unnamed/part_001 line 337): 1% stop loss. -/
def stopLossPercentage : ℚ := 1 / 100

/-- `takeProfitPercentage` (src/unnamed/part_001 line 338): 5% take profit. -/
def takeProfitPercentage : ℚ := 5 / 100

/-- Result record of `calculateRiskLevels`. -/
structure RiskLevels where
  takeProfitPrice : ℤ
  stopLossPrice : ℤ
deriving DecidableEq, Repr

/-- `calculateRiskLevels` (src/unnamed/part_001 lines 346-365): for
`buy`, TP = round(entry·(1+5%)), SL = round(entry·(1-1%)); for `sell`
the offsets are inverted; any other side throws (`none`). -/
def calculateRiskLevels (entryPrice : ℚ) (tradeSide : String) : Option RiskLevels :=
  if tradeSide = "buy" then
    some { takeProfitPrice := jsRound (entryPrice * (1 + takeProfitPercentage))
           stopLossPrice := jsRound (entryPrice * (1 - stopLossPercentage)) }
  else if tradeSide = "sell" then
    some { takeProfitPrice := jsRound (entryPrice * (1 - takeProfitPercentage))
           stopLossPrice := jsRound (entryPrice * (1 + stopLossPercentage)) }
  else none

/-! ## Positions, orders, and the MASTER.js trade pipeline
(src/MASTER.js lines 180-319, mirrored in src/unnamed/part_001 lines
236-405 and src/unnamed/part_002 lines 266-433) -/

/-- An open position snapshot as returned by `getFuturesPositions`. -/
structure Position where
  symbol : String
  holdSide : String
deriving DecidableEq, Repr

/-- A pending order snapshot (one entry of `data.entrustedList`). -/
structure PendingOrder where
  symbol : String
  side : String
deriving DecidableEq, Repr

/-- The exchange-side state the scripts read and mutate. -/
structure MarketState where
  positions : List Position
  orders : List PendingOrder
deriving DecidableEq, Repr

/-- Which REST calls the exchange fails: `closeFailures` lists the
`(symbol, holdSide)` pairs for which `futuresFlashClosePositions`
raises, `leverageFails`/`submitFails` make `setFuturesLeverage`/
`futuresSubmitOrder` raise. The fetch calls are modelled as always
succeeding. -/
structure Env where
  closeFailures : List (String × String)
  leverageFails : Bool
  submitFails : Bool
deriving DecidableEq, Repr

/-- One mutating REST call made by the pipeline. -/
inductive TradeAction where
  | closePositionCall (symbol holdSide : String)
  | cancelAllOrdersCall (symbol : String)
  | setLeverageCall (symbol holdSide : String)
  | submitOrderCall (symbol side : String)
deriving DecidableEq, Repr

/-- Is this action a `futuresSubmitOrder` call? -/
def TradeAction.isSubmit : TradeAction → Bool
  | .submitOrderCall _ _ => true
  | _ => false

/-- Is this action a `setFuturesLeverage` call? -/
def TradeAction.isSetLeverage : TradeAction → Bool
  | .setLeverageCall _ _ => true
  | _ => false

/-- `closeOpenPositions` (src/MASTER.js lines 192-204): one
`futuresFlashClosePositions` call; on success the exchange closes
every `(symbol, holdSide)` position; any error is caught and only
logged, so the function never raises. -/
def closeOpenPositions (env : Env) (st : MarketState) (symbol holdSide : String) :
    MarketState × List TradeAction :=
  if (symbol, holdSide) ∈ env.closeFailures then
    (st, [TradeAction.closePositionCall symbol holdSide])
  else
    ({ st with positions :=
        st.positions.filter (fun p => !(decide (p.symbol = symbol ∧ p.holdSide = holdSide))) },
      [TradeAction.closePositionCall symbol holdSide])

/-- `cancelAllOrders` (src/MASTER.js lines 181-189): one
`futuresCancelAllOrders` call cancelling every order for `symbol`;
errors are caught and only logged. -/
def cancelAllOrders (st : MarketState) (symbol : String) :
    MarketState × List TradeAction :=
  ({ st with orders := st.orders.filter (fun o => !(decide (o.symbol = symbol))) },
    [TradeAction.cancelAllOrdersCall symbol])

/-- The positions loop of `closeOpposingPositions` (src/MASTER.js lines
218-224): iterates the fetched snapshot and closes the opposing side
for every matching entry. -/
def closePositionsLoop (env : Env) (symbol opposingSide : String) :
    List Position → MarketState → MarketState × List TradeAction
  | [], st => (st, [])
  | p :: ps, st =>
    if p.holdSide = opposingSide ∧ p.symbol = symbol then
      let r1 := closeOpenPositions env st symbol opposingSide
      let r2 := closePositionsLoop env symbol opposingSide ps r1.1
      (r2.1, r1.2 ++ r2.2)
    else closePositionsLoop env symbol opposingSide ps st

/-- The orders loop of `closeOpposingPositions` (src/MASTER.js lines
230-236): for every snapshot order with a different side and matching
symbol, cancel all orders for the symbol. -/
def cancelOrdersLoop (symbol side : String) :
    List PendingOrder → MarketState → MarketState × List TradeAction
  | [], st => (st, [])
  | o :: os, st =>
    if o.side ≠ side ∧ o.symbol = symbol then
      let r1 := cancelAllOrders st symbol
      let r2 := cancelOrdersLoop symbol side os r1.1
      (r2.1, r1.2 ++ r2.2)
    else cancelOrdersLoop symbol side os st

/-- `closeOpposingPositions` (src/MASTER.js lines 207-240): compute the
opposing side, fetch positions and close matching opposing ones, then
fetch pending orders and cancel matching opposing ones. Close/cancel
errors are swallowed inside the callees, so the pass always completes. -/
def closeOpposingPositions (env : Env) (st : MarketState) (symbol side : String) :
    MarketState × List TradeAction :=
  let opposingSide := if side = "buy" then "short" else "long"
  let r1 := closePositionsLoop env symbol opposingSide st.positions st
  let r2 := cancelOrdersLoop symbol side r1.1.orders r1.1
  (r2.1, r1.2 ++ r2.2)

/-- A trade signal as consumed by `placeTrade`. -/
structure Signal where
  symbol : String
  price : ℚ
  side : String
deriving DecidableEq, Repr

/-- The order `placeTrade` submits (the varying fields; `productType`,
`marginMode`, `marginCoin`, `size`, `orderType`, `force` and
`leverage` are the constants of src/MASTER.js lines 271-278). -/
structure SubmittedOrder where
  symbol : String
  side : String
  price : ℚ
  presetTakeProfitPrice : ℤ
  presetStopLossPrice : ℤ
deriving DecidableEq, Repr

/-- `placeTrade` (src/MASTER.js lines 243-319): reconcile via
`closeOpposingPositions`, re-fetch positions/orders, skip (returning
`undefined`, modelled `.ok none`) when a matching same-side position
or pending order exists, otherwise compute the floor-rounded TP/SL
presets (lines 281-282), set leverage and submit; an error in either
of those two calls is rethrown (`.error ()`). -/
def placeTrade (env : Env) (st : MarketState) (sig : Signal) :
    MarketState × List TradeAction × Except Unit (Option SubmittedOrder) :=
  let r := closeOpposingPositions env st sig.symbol sig.side
  let st1 := r.1
  let tr1 := r.2
  let positions := st1.positions
  let pendingOrders := st1.orders
  if positions.any (fun pos =>
      decide (pos.holdSide = (if sig.side = "buy" then "long" else "short") ∧
        pos.symbol = sig.symbol)) then
    (st1, tr1, .ok none)
  else if pendingOrders.any (fun order =>
      decide (order.side = sig.side ∧ order.symbol = sig.symbol)) then
    (st1, tr1, .ok none)
  else
    let presetTakeProfitPrice : ℤ :=
      if sig.side = "buy" then ⌊sig.price * (105 / 100)⌋ else ⌊sig.price * (95 / 100)⌋
    let presetStopLossPrice : ℤ :=
      if sig.side = "buy" then ⌊sig.price * (95 / 100)⌋ else ⌊sig.price * (105 / 100)⌋
    let holdSide := if sig.side = "buy" then "long" else "short"
    if env.leverageFails then
      (st1, tr1 ++ [TradeAction.setLeverageCall sig.symbol holdSide], .error ())
    else if env.submitFails then
      (st1, tr1 ++ [TradeAction.setLeverageCall sig.symbol holdSide,
        TradeAction.submitOrderCall sig.symbol sig.side], .error ())
    else
      (st1, tr1 ++ [TradeAction.setLeverageCall sig.symbol holdSide,
        TradeAction.submitOrderCall sig.symbol sig.side],
        .ok (some
          { symbol := sig.symbol, side := sig.side, price := sig.price,
            presetTakeProfitPrice := presetTakeProfitPrice,
            presetStopLossPrice := presetStopLossPrice }))

/-! ## The webhook pipeline (src/test.js lines 47-260, identical shape
in the second half of src/server.js lines 346-526) -/

/-- A JSON value from the webhook request body: absent (`undefined`),
`null`, a string, or a number. -/
inductive JVal where
  | undef
  | jnull
  | jstr (s : String)
  | jnum (q : ℚ)
deriving DecidableEq, Repr

/-- JavaScript truthiness of a body field, as tested by
`if (!symbol || !price || ...)`: `undefined`, `null`, `''` and `0` are
falsy. -/
def JVal.truthy : JVal → Bool
  | .undef => false
  | .jnull => false
  | .jstr s => !s.isEmpty
  | .jnum q => decide (q ≠ 0)

/-- JS strict equality of a body value with a string literal
(`side === 'buy'`, `position.symbol === symbol`). -/
def JVal.eqStr : JVal → String → Bool
  | .jstr t, s => t == s
  | _, _ => false

/-- A position snapshot as the webhook scripts read it: these copies
key the direction on `position.side` (`'buy'`/`'sell'`), not
`holdSide` (src/test.js line 115). -/
structure PositionW where
  symbol : String
  side : String
deriving DecidableEq, Repr

/-- Exchange state seen by the webhook pipeline. -/
structure MarketStateW where
  positions : List PositionW
  orders : List PendingOrder
deriving DecidableEq, Repr

/-- Which of the webhook pipeline's REST calls raise. -/
structure EnvW where
  flashCloseFails : Bool
  cancelFails : Bool
  leverageFails : Bool
  submitFails : Bool
deriving DecidableEq, Repr

/-- The order object `placeTrade` submits (src/test.js lines 204-217);
`productType`, `marginMode`, `tradeSide` and `force` are constants and
omitted; the rest are the raw JSON values passed through. -/
structure WOrder where
  symbol : JVal
  size : JVal
  price : JVal
  side : JVal
  orderType : JVal
  marginCoin : JVal
  presetTakeProfitPrice : JVal
  presetStopLossPrice : JVal
deriving DecidableEq, Repr

/-- One mutating REST call made by the webhook pipeline. -/
inductive WAction where
  | flashCloseCall (symbol : JVal) (holdSide : String)
  | cancelAllCall (symbol : JVal)
  | setLeverageCall (holdSide : String) (leverage : JVal)
  | submitCall (order : WOrder)
deriving DecidableEq, Repr

/-- Is this action a `futuresSubmitOrder` call? -/
def WAction.isSubmit : WAction → Bool
  | .submitCall _ => true
  | _ => false

/-- The direction the webhook scripts derive from `position.side`
(`position.side === 'buy' ? 'long' : 'short'`, src/test.js line 115). -/
def PositionW.holdSide (p : PositionW) : String :=
  if p.side = "buy" then "long" else "short"

/-- The loop of `closeOpenPositions` (src/test.js lines 106-136): for
every snapshot position matching the requested symbol, one
`futuresFlashClosePositions` call; a non-`'00000'` response code is
only logged, but an exception from the call itself is rethrown,
aborting the loop. -/
def closePositionsLoopW (env : EnvW) (symbolJ : JVal) :
    List PositionW → MarketStateW → List WAction × Except Unit MarketStateW
  | [], st => ([], .ok st)
  | p :: ps, st =>
    if symbolJ.eqStr p.symbol then
      let holdSide := p.holdSide
      if env.flashCloseFails then
        ([WAction.flashCloseCall symbolJ holdSide], .error ())
      else
        let remaining := st.positions.filter
          (fun q => !(symbolJ.eqStr q.symbol && (q.holdSide == holdSide)))
        let st1 : MarketStateW := { st with positions := remaining }
        let r := closePositionsLoopW env symbolJ ps st1
        (WAction.flashCloseCall symbolJ holdSide :: r.1, r.2)
    else closePositionsLoopW env symbolJ ps st

/-- `closeOpenPositions` (src/test.js lines 106-136): fetch the
position snapshot, then run the closing loop. -/
def closeOpenPositionsW (env : EnvW) (st : MarketStateW) (symbolJ : JVal) :
    List WAction × Except Unit MarketStateW :=
  closePositionsLoopW env symbolJ st.positions st

/-- `futuresCancelAllOrders` (src/test.js lines 139-152): one
cancel-all call for the symbol; a bad response code is only logged, an
exception is rethrown. -/
def futuresCancelAllOrdersW (env : EnvW) (st : MarketStateW) (symbolJ : JVal) :
    List WAction × Except Unit MarketStateW :=
  if env.cancelFails then ([WAction.cancelAllCall symbolJ], .error ())
  else
    ([WAction.cancelAllCall symbolJ],
      .ok { st with orders := st.orders.filter (fun o => !(symbolJ.eqStr o.symbol)) })

/-- `manageTradingAssets` (src/test.js lines 47-61): close open
positions, then cancel all orders; any error is caught and rethrown
as `Failed to manage trading assets`. -/
def manageTradingAssets (env : EnvW) (st : MarketStateW) (symbolJ : JVal) :
    List WAction × Except Unit MarketStateW :=
  let r1 := closeOpenPositionsW env st symbolJ
  match r1.2 with
  | .error _ => (r1.1, .error ())
  | .ok st1 =>
    let r2 := futuresCancelAllOrdersW env st1 symbolJ
    match r2.2 with
    | .error _ => (r1.1 ++ r2.1, .error ())
    | .ok st2 => (r1.1 ++ r2.1, .ok st2)

/-- `placeTrade` (src/test.js lines 186-227): set leverage for the
derived hold side, then submit the order; an error in either call is
rethrown; the exchange acknowledgment is modelled as the submitted
order itself. -/
def placeTradeW (env : EnvW)
    (symbol price size orderType marginCoin side leverage
      presetTakeProfitPrice presetStopLossPrice : JVal) :
    List WAction × Except Unit WOrder :=
  let holdSide := if side.eqStr "buy" then "long" else "short"
  if env.leverageFails then
    ([WAction.setLeverageCall holdSide leverage], .error ())
  else
    let order : WOrder :=
      { symbol := symbol, size := size, price := price, side := side,
        orderType := orderType, marginCoin := marginCoin,
        presetTakeProfitPrice := presetTakeProfitPrice,
        presetStopLossPrice := presetStopLossPrice }
    if env.submitFails then
      ([WAction.setLeverageCall holdSide leverage, WAction.submitCall order], .error ())
    else
      ([WAction.setLeverageCall holdSide leverage, WAction.submitCall order], .ok order)

/-- The JSON body of a `POST /webhook` request (the fields src/test.js
lines 231-241 destructure; absent fields are `undef`). -/
structure WebhookBody where
  symbol : JVal
  price : JVal
  size : JVal
  orderType : JVal
  marginCoin : JVal
  side : JVal
  leverage : JVal
  presetTakeProfitPrice : JVal
  presetStopLossPrice : JVal
deriving DecidableEq, Repr

/-- A webhook HTTP response body. -/
inductive WebhookResp where
  | missingFields
  | failed
  | ok (result : WOrder)
deriving DecidableEq, Repr

/-- The validation test of src/test.js line 244:
`!symbol || !price || !size || !orderType || !marginCoin || !side`
negated — all six required fields truthy. -/
def WebhookBody.valid (b : WebhookBody) : Bool :=
  b.symbol.truthy && b.price.truthy && b.size.truthy &&
    b.orderType.truthy && b.marginCoin.truthy && b.side.truthy

/-- The `POST /webhook` handler (src/test.js lines 230-260, identical
in src/server.js lines 496-526): 400 `Missing required fields` when a
required field is falsy; otherwise `manageTradingAssets` then
`placeTrade`, answering 200 with the exchange result, or 500 `Failed
to place order` when either step throws. -/
def webhookHandler (env : EnvW) (st : MarketStateW) (b : WebhookBody) :
    (ℕ × WebhookResp) × List WAction :=
  if !b.valid then ((400, WebhookResp.missingFields), [])
  else
    let r1 := manageTradingAssets env st b.symbol
    match r1.2 with
    | .error _ => ((500, WebhookResp.failed), r1.1)
    | .ok _ =>
      let r2 := placeTradeW env b.symbol b.price b.size b.orderType b.marginCoin
        b.side b.leverage b.presetTakeProfitPrice b.presetStopLossPrice
      match r2.2 with
      | .error _ => ((500, WebhookResp.failed), r1.1 ++ r2.1)
      | .ok result => ((200, WebhookResp.ok result), r1.1 ++ r2.1)

/-! ## Helper lemmas -/

/-- Every entry `moneyFlowTail` produces is `1` or `-1`. -/
theorem moneyFlowTail_mem (x : ℚ) (xs : List ℚ) (v : ℚ)
    (hv : v ∈ moneyFlowTail x xs) : v = 1 ∨ v = -1 := by
  induction xs generalizing x with
  | nil => simp [moneyFlowTail] at hv
  | cons y ys ih =>
    simp only [moneyFlowTail, List.mem_cons] at hv
    rcases hv with h | h
    · split at h
      · exact Or.inl h
      · exact Or.inr h
    · exact ih y h

/-- `moneyFlowTail` preserves length. -/
theorem moneyFlowTail_length (x : ℚ) (xs : List ℚ) :
    (moneyFlowTail x xs).length = xs.length := by
  induction xs generalizing x with
  | nil => rfl
  | cons y ys ih => simp [moneyFlowTail, ih]

/-- Two conjunction chains whose heads decide contradictory
propositions are never both true. -/
theorem and_chains_exclusive {p q : Prop} [Decidable p] [Decidable q]
    (h : p → q → False) (x y u v : Bool) :
    ((decide p && x && y) && (decide q && u && v)) = false := by
  by_cases hp : p
  · have hq : ¬q := fun hq => h hp hq
    simp [hq]
  · simp [hp]

/-- Four-conjunct version of `and_chains_exclusive`. -/
theorem and_chains_exclusive4 {p q : Prop} [Decidable p] [Decidable q]
    (h : p → q → False) (x y z u v w : Bool) :
    ((decide p && x && y && z) && (decide q && u && v && w)) = false := by
  by_cases hp : p
  · have hq : ¬q := fun hq => h hp hq
    simp [hq]
  · simp [hp]

/-! ## C10: money flow range -/

/-- C10: for every input list `hlc3`, `calculateMoneyFlow` returns a
list of the same length, whose first element is `0` when the input is
non-empty, and all of whose elements lie in `{-1, 0, 1}` — so the
money-flow value the Signal Evaluator reads is always in `{-1, 0, 1}`. -/
theorem calculateMoneyFlow_range (hlc3 : List ℚ) :
    (calculateMoneyFlow hlc3).length = hlc3.length ∧
    (hlc3 ≠ [] → (calculateMoneyFlow hlc3).head? = some 0) ∧
    (∀ v ∈ calculateMoneyFlow hlc3, v = -1 ∨ v = 0 ∨ v = 1) := by
  rcases hlc3 with _ | ⟨x, xs⟩
  · simp [calculateMoneyFlow]
  · refine ⟨?_, fun _ => rfl, ?_⟩
    · simp [calculateMoneyFlow, moneyFlowTail_length]
    · intro v hv
      simp only [calculateMoneyFlow, List.mem_cons] at hv
      rcases hv with h | h
      · exact Or.inr (Or.inl h)
      · rcases moneyFlowTail_mem x xs v h with h1 | h1
        · exact Or.inr (Or.inr h1)
        · exact Or.inl h1

/-- Witness for C10: `calculateMoneyFlow [1, 2, 0] = [0, 1, -1]`, its
head is `0` and its member `1` is classified in `{-1, 0, 1}`. -/
theorem calculateMoneyFlow_range_witness :
    (calculateMoneyFlow [1, 2, 0]).head? = some 0 ∧
    ((1 : ℚ) = -1 ∨ (1 : ℚ) = 0 ∨ (1 : ℚ) = 1) :=
  ⟨(calculateMoneyFlow_range [1, 2, 0]).2.1 (by simp),
   (calculateMoneyFlow_range [1, 2, 0]).2.2 1
     (by norm_num [calculateMoneyFlow, moneyFlowTail])⟩

/-! ## C5: risk levels -/

/-- Counterexample for C5: the general part of the claim — for
`side = buy` the take-profit is strictly above and the stop-loss
strictly below the reference price — fails at `entryPrice = 2`:
`calculateRiskLevels 2 "buy"` rounds both `2 · 1.05 = 2.1` and
`2 · 0.99 = 1.98` to `2`, equal to the reference price. -/
theorem calculateRiskLevels_not_strictly_bracketing :
    ¬ ∀ (p : ℚ) (r : RiskLevels), 0 < p → calculateRiskLevels p "buy" = some r →
        p < (r.takeProfitPrice : ℚ) ∧ (r.stopLossPrice : ℚ) < p := by
  intro h
  have h2 : calculateRiskLevels 2 "buy" = some ⟨2, 2⟩ := by
    norm_num [calculateRiskLevels, jsRound, takeProfitPercentage, stopLossPercentage]
  have := (h 2 ⟨2, 2⟩ (by norm_num) h2).1
  norm_num at this

/-- C5 (amended): with `stopLossPercentage = 0.01` and
`takeProfitPercentage = 0.05`, `calculateRiskLevels` maps entry 100 on
side `buy` to TP 105 / SL 99 (and on side `sell` to TP 95 / SL 101),
and for every positive entry price the pre-rounding take-profit
`p·(1+0.05)` is strictly above and pre-rounding stop-loss `p·(1-0.01)`
strictly below the reference price (inverted for `sell`); after
`Math.round`, the strict ordering may collapse onto the entry price. -/
theorem calculateRiskLevels_spec :
    calculateRiskLevels 100 "buy" = some ⟨105, 99⟩ ∧
    calculateRiskLevels 100 "sell" = some ⟨95, 101⟩ ∧
    ∀ p : ℚ, 0 < p →
      p < p * (1 + takeProfitPercentage) ∧ p * (1 - stopLossPercentage) < p ∧
        p * (1 - takeProfitPercentage) < p ∧ p < p * (1 + stopLossPercentage) := by
  refine ⟨?_, ?_, ?_⟩
  · norm_num [calculateRiskLevels, jsRound, takeProfitPercentage, stopLossPercentage]
  · norm_num [calculateRiskLevels, jsRound, takeProfitPercentage, stopLossPercentage]
    decide
  · intro p hp
    simp only [takeProfitPercentage, stopLossPercentage]
    refine ⟨by nlinarith, by nlinarith, by nlinarith, by nlinarith⟩

/-- Witness for C5: the concrete instance plus the pre-rounding bound
instantiated at `p = 2`. -/
theorem calculateRiskLevels_spec_witness :
    calculateRiskLevels 100 "buy" = some ⟨105, 99⟩ ∧
    (2 : ℚ) < 2 * (1 + takeProfitPercentage) :=
  ⟨calculateRiskLevels_spec.1, (calculateRiskLevels_spec.2.2 2 (by norm_num)).1⟩

/-! ## C3: buy/sell mutual exclusion -/

/-- C3: for every candle sequence the evaluator accepts (i.e. on which
it returns a result), `buySignal` and `sellSignal` are never both
true, in both `calculateMarketCipherSignals` (the money-flow sign
conditions `mf > 0` and `mf < 0` are contradictory) and
`calculateTradingSignals` (the price/EMA9 conditions `price > ema9`
and `price < ema9` are contradictory). -/
theorem signals_mutually_exclusive :
    (∀ (candles : List Candle) (s : MCSignals),
      calculateMarketCipherSignals candles = some s →
        (s.buySignal && s.sellSignal) = false) ∧
    (∀ (candles : List Candle) (s : TSignals),
      calculateTradingSignals candles = some s →
        (s.buySignal && s.sellSignal) = false) := by
  constructor
  · intro candles s h
    simp only [calculateMarketCipherSignals] at h
    split at h
    · exact absurd h (by simp)
    · rw [Option.some.injEq] at h
      subst h
      exact and_chains_exclusive (fun h1 h2 => lt_asymm h1 h2) _ _ _ _
  · intro candles s h
    simp only [calculateTradingSignals] at h
    split at h
    · exact absurd h (by simp)
    · rw [Option.some.injEq] at h
      subst h
      exact and_chains_exclusive4 (fun h1 h2 => lt_asymm h1 h2) _ _ _ _ _ _

/-- Witness for C3: both evaluators produce a (no-signal) result on a
concrete one-candle list, and the exclusivity conclusion holds there. -/
theorem signals_mutually_exclusive_witness :
    calculateMarketCipherSignals [⟨0, 1, 2, 0, 3, 1⟩] = some ⟨false, false, 3⟩ ∧
    calculateTradingSignals [⟨0, 1, 2, 0, 3, 1⟩] =
      some ⟨false, false, JNum.num 0, JNum.num 0, 3⟩ ∧
    (false && false) = false ∧ (false && false) = false := by
  have h1 : calculateMarketCipherSignals [⟨0, 1, 2, 0, 3, 1⟩] = some ⟨false, false, 3⟩ := by
    norm_num [calculateMarketCipherSignals, calculateMoneyFlow, moneyFlowTail,
      calculateStochasticRSI, calculateEMA, emaLoop, List.getLastD]
  have h2 : calculateTradingSignals [⟨0, 1, 2, 0, 3, 1⟩] =
      some ⟨false, false, JNum.num 0, JNum.num 0, 3⟩ := by
    norm_num [calculateTradingSignals, calculateEMA, emaLoop, calculateVWAP, vwapLoop,
      calculateATR, trueRanges, trueRangesTail, calculateRSI, closeChanges, lastJ,
      JNum.ltC, JNum.gtC, JNum.mulC, List.getLastD, List.range_succ]
  exact ⟨h1, h2, signals_mutually_exclusive.1 _ _ h1, signals_mutually_exclusive.2 _ _ h2⟩

/-! ## C4: behaviour below the lookback -/

/-- Counterexample for C4: on the empty candle sequence neither
evaluator returns a no-signal result — both throw a `TypeError`
reading `candles[candles.length - 1][4]` (modelled by `none`), so
there is no returned signal record at all. -/
theorem evaluator_throws_on_empty :
    calculateMarketCipherSignals [] = none ∧ calculateTradingSignals [] = none ∧
    ¬ ∃ s : TSignals, calculateTradingSignals [] = some s := by
  refine ⟨rfl, rfl, ?_⟩
  rintro ⟨s, hs⟩
  rw [show calculateTradingSignals [] = none from rfl] at hs
  exact Option.noConfusion hs

/-- C4 (amended): the evaluators perform no lookback-length check: on
the empty sequence they throw (modelled `none`; the trading loop's
`try/catch` is what keeps the process alive), and a non-empty sequence
shorter than every indicator lookback is evaluated from the partial
data and can even produce a buy signal (here: two candles, far fewer
than the 21-period EMA / 14-period RSI lookback, with the `null`
warm-up RSI comparing as `null < 70 = true`). -/
theorem evaluator_no_lookback_guard :
    calculateMarketCipherSignals [] = none ∧ calculateTradingSignals [] = none ∧
    calculateTradingSignals [⟨0, 1, 1, 1, 1, 1⟩, ⟨1, 1, 2, 1, 2, 1⟩] =
      some ⟨true, false, JNum.num 0, JNum.num 0, 2⟩ := by
  refine ⟨rfl, rfl, ?_⟩
  norm_num [calculateTradingSignals, calculateEMA, emaLoop, calculateVWAP, vwapLoop,
    calculateATR, trueRanges, trueRangesTail, calculateRSI, closeChanges, lastJ,
    JNum.ltC, JNum.gtC, JNum.mulC, List.getLastD, List.range_succ]

/-! ## C9: falsy webhook fields -/

/-- C9: a `POST /webhook` body whose required field is present but
falsy (`price` 0, `size` 0, or an empty-string `symbol`) is rejected
with HTTP 400 `Missing required fields` and no exchange call is made,
because the validation tests truthiness, not presence. -/
theorem webhook_rejects_falsy_fields (env : EnvW) (st : MarketStateW) (b : WebhookBody)
    (h : b.price = JVal.jnum 0 ∨ b.size = JVal.jnum 0 ∨ b.symbol = JVal.jstr "") :
    webhookHandler env st b = ((400, WebhookResp.missingFields), []) := by
  have hv : b.valid = false := by
    rcases h with h | h | h
    · simp [WebhookBody.valid, h, JVal.truthy]
    · simp [WebhookBody.valid, h, JVal.truthy]
    · have hsym : (JVal.jstr "").truthy = false := by decide
      simp [WebhookBody.valid, h, hsym]
  simp [webhookHandler, hv]

/-- Witness for C9: a fully-populated body with `price = 0` is
rejected with 400 and an empty call trace. -/
theorem webhook_rejects_falsy_fields_witness :
    webhookHandler ⟨false, false, false, false⟩ ⟨[], []⟩
      ⟨JVal.jstr "BTCUSDT", JVal.jnum 0, JVal.jnum 1, JVal.jstr "limit",
        JVal.jstr "USDT", JVal.jstr "buy", JVal.undef, JVal.undef, JVal.undef⟩ =
      ((400, WebhookResp.missingFields), []) :=
  webhook_rejects_falsy_fields _ _ _ (Or.inl rfl)


/-! ## Helper lemmas on the MASTER.js pipeline -/

/-- `closeOpenPositions` always makes exactly one flash-close call. -/
theorem closeOpenPositions_trace (env : Env) (st : MarketState) (symbol holdSide : String) :
    (closeOpenPositions env st symbol holdSide).2 =
      [TradeAction.closePositionCall symbol holdSide] := by
  unfold closeOpenPositions
  split <;> rfl

/-- `closeOpenPositions` never touches pending orders. -/
theorem closeOpenPositions_orders (env : Env) (st : MarketState) (symbol holdSide : String) :
    (closeOpenPositions env st symbol holdSide).1.orders = st.orders := by
  unfold closeOpenPositions
  split <;> rfl

/-- `closeOpenPositions` keeps every position not matching the closed
`(symbol, holdSide)` pair. -/
theorem closeOpenPositions_positions_mem (env : Env) (st : MarketState)
    (symbol holdSide : String) (p : Position) (hp : p ∈ st.positions)
    (hne : ¬(p.symbol = symbol ∧ p.holdSide = holdSide)) :
    p ∈ (closeOpenPositions env st symbol holdSide).1.positions := by
  unfold closeOpenPositions
  split
  · exact hp
  · simp only [List.mem_filter]
    refine ⟨hp, ?_⟩
    simpa using not_and_or.mp hne

/-- The positions loop makes one close call per matching snapshot
entry, regardless of earlier failures. -/
theorem closePositionsLoop_trace (env : Env) (symbol opposingSide : String)
    (ps : List Position) (st : MarketState) :
    (closePositionsLoop env symbol opposingSide ps st).2 =
      List.replicate
        (ps.countP (fun p => decide (p.holdSide = opposingSide ∧ p.symbol = symbol)))
        (TradeAction.closePositionCall symbol opposingSide) := by
  induction ps generalizing st with
  | nil => simp [closePositionsLoop]
  | cons p ps ih =>
    simp only [closePositionsLoop]
    split
    · rename_i hc
      simp [closeOpenPositions_trace, ih, hc.1, hc.2, List.replicate_succ]
    · rename_i hc
      rw [List.countP_cons_of_neg]
      · exact ih st
      · exact fun hpa => hc (of_decide_eq_true hpa)

/-- The positions loop never touches pending orders. -/
theorem closePositionsLoop_orders (env : Env) (symbol opposingSide : String)
    (ps : List Position) (st : MarketState) :
    (closePositionsLoop env symbol opposingSide ps st).1.orders = st.orders := by
  induction ps generalizing st with
  | nil => rfl
  | cons p ps ih =>
    simp only [closePositionsLoop]
    split
    · rw [ih, closeOpenPositions_orders]
    · exact ih st

/-- A position that never matches the closed pair survives the whole
positions loop. -/
theorem closePositionsLoop_positions_mem (env : Env) (symbol opposingSide : String)
    (ps : List Position) (st : MarketState) (p : Position) (hp : p ∈ st.positions)
    (hne : ¬(p.symbol = symbol ∧ p.holdSide = opposingSide)) :
    p ∈ (closePositionsLoop env symbol opposingSide ps st).1.positions := by
  induction ps generalizing st with
  | nil => exact hp
  | cons q ps ih =>
    simp only [closePositionsLoop]
    split
    · exact ih _ (closeOpenPositions_positions_mem env st symbol opposingSide p hp hne)
    · exact ih st hp

/-- The orders loop makes one cancel-all call per matching snapshot
entry. -/
theorem cancelOrdersLoop_trace (symbol side : String)
    (os : List PendingOrder) (st : MarketState) :
    (cancelOrdersLoop symbol side os st).2 =
      List.replicate
        (os.countP (fun o => decide (o.side ≠ side ∧ o.symbol = symbol)))
        (TradeAction.cancelAllOrdersCall symbol) := by
  induction os generalizing st with
  | nil => simp [cancelOrdersLoop]
  | cons o os ih =>
    simp only [cancelOrdersLoop]
    split
    · rename_i hc
      simp [cancelAllOrders, ih, hc.1, hc.2, List.replicate_succ]
    · rename_i hc
      rw [List.countP_cons_of_neg]
      · exact ih st
      · exact fun hpa => hc (of_decide_eq_true hpa)

/-- The orders loop never touches positions. -/
theorem cancelOrdersLoop_positions (symbol side : String)
    (os : List PendingOrder) (st : MarketState) :
    (cancelOrdersLoop symbol side os st).1.positions = st.positions := by
  induction os generalizing st with
  | nil => rfl
  | cons o os ih =>
    simp only [cancelOrdersLoop]
    split
    · rw [ih]
      rfl
    · exact ih st

/-- The orders loop only ever removes orders. -/
theorem cancelOrdersLoop_orders_sub (symbol side : String)
    (os : List PendingOrder) (st : MarketState) :
    ∀ o ∈ (cancelOrdersLoop symbol side os st).1.orders, o ∈ st.orders := by
  induction os generalizing st with
  | nil => intro o ho; exact ho
  | cons q os ih =>
    simp only [cancelOrdersLoop]
    split
    · intro o ho
      have h1 := ih _ o ho
      simp only [cancelAllOrders] at h1
      exact List.mem_of_mem_filter h1
    · exact ih st

/-- Once any matching opposing order is in the snapshot, the loop's
cancel-all call leaves no order for the symbol in the final state. -/
theorem cancelOrdersLoop_clears (symbol side : String)
    (os : List PendingOrder) (st : MarketState) (o : PendingOrder)
    (ho : o ∈ os) (hs : o.side ≠ side) (hm : o.symbol = symbol) :
    ∀ o2 ∈ (cancelOrdersLoop symbol side os st).1.orders, o2.symbol ≠ symbol := by
  induction os generalizing st with
  | nil => cases ho
  | cons q os ih =>
    rcases List.mem_cons.mp ho with hq | ho2
    · simp only [cancelOrdersLoop]
      rw [if_pos (hq ▸ And.intro hs hm)]
      intro o2 ho2
      have hsub := cancelOrdersLoop_orders_sub symbol side os (cancelAllOrders st symbol).1 o2 ho2
      simp only [cancelAllOrders, List.mem_filter] at hsub
      simpa using hsub.2
    · simp only [cancelOrdersLoop]
      split
      · exact ih _ ho2
      · exact ih st ho2

/-- If no snapshot order matches, the orders loop is the identity on
the state. -/
theorem cancelOrdersLoop_id_of_no_match (symbol side : String)
    (os : List PendingOrder) (st : MarketState)
    (h : ∀ o ∈ os, ¬(o.side ≠ side ∧ o.symbol = symbol)) :
    (cancelOrdersLoop symbol side os st).1 = st := by
  induction os generalizing st with
  | nil => rfl
  | cons q os ih =>
    simp only [cancelOrdersLoop]
    rw [if_neg (h q (List.mem_cons_self q os))]
    exact ih st (fun o ho => h o (List.mem_cons_of_mem q ho))

/-- The full call trace of one reconciliation pass: one close call per
matching opposing position in the snapshot, followed by one cancel-all
call per matching opposing order. -/
theorem closeOpposingPositions_trace (env : Env) (st : MarketState) (symbol side : String) :
    (closeOpposingPositions env st symbol side).2 =
      List.replicate
        (st.positions.countP (fun p =>
          decide (p.holdSide = (if side = "buy" then "short" else "long") ∧
            p.symbol = symbol)))
        (TradeAction.closePositionCall symbol (if side = "buy" then "short" else "long")) ++
      List.replicate
        (st.orders.countP (fun o => decide (o.side ≠ side ∧ o.symbol = symbol)))
        (TradeAction.cancelAllOrdersCall symbol) := by
  simp only [closeOpposingPositions]
  rw [closePositionsLoop_trace, cancelOrdersLoop_trace, closePositionsLoop_orders]

/-- Every action of a reconciliation pass is a close or a cancel. -/
theorem closeOpposingPositions_trace_mem (env : Env) (st : MarketState)
    (symbol side : String) (a : TradeAction)
    (ha : a ∈ (closeOpposingPositions env st symbol side).2) :
    a = TradeAction.closePositionCall symbol (if side = "buy" then "short" else "long") ∨
      a = TradeAction.cancelAllOrdersCall symbol := by
  rw [closeOpposingPositions_trace] at ha
  rcases List.mem_append.mp ha with h | h
  · exact Or.inl (List.eq_of_mem_replicate h)
  · exact Or.inr (List.eq_of_mem_replicate h)

/-- A reconciliation pass never calls `futuresSubmitOrder`. -/
theorem closeOpposingPositions_countP_submit (env : Env) (st : MarketState)
    (symbol side : String) :
    (closeOpposingPositions env st symbol side).2.countP TradeAction.isSubmit = 0 := by
  rw [List.countP_eq_zero]
  intro a ha
  rcases closeOpposingPositions_trace_mem env st symbol side a ha with rfl | rfl <;>
    simp [TradeAction.isSubmit]

/-- A reconciliation pass never calls `setFuturesLeverage`. -/
theorem closeOpposingPositions_countP_setLeverage (env : Env) (st : MarketState)
    (symbol side : String) :
    (closeOpposingPositions env st symbol side).2.countP TradeAction.isSetLeverage = 0 := by
  rw [List.countP_eq_zero]
  intro a ha
  rcases closeOpposingPositions_trace_mem env st symbol side a ha with rfl | rfl <;>
    simp [TradeAction.isSetLeverage]

/-- The state after a reconciliation pass, unfolded. -/
theorem closeOpposingPositions_state (env : Env) (st : MarketState) (symbol side : String) :
    (closeOpposingPositions env st symbol side).1 =
      (cancelOrdersLoop symbol side
        (closePositionsLoop env symbol (if side = "buy" then "short" else "long")
          st.positions st).1.orders
        (closePositionsLoop env symbol (if side = "buy" then "short" else "long")
          st.positions st).1).1 := rfl

/-- A position whose hold side is not the opposing one survives the
whole reconciliation pass. -/
theorem closeOpposingPositions_positions_mem (env : Env) (st : MarketState)
    (symbol side : String) (p : Position) (hp : p ∈ st.positions)
    (hne : ¬(p.symbol = symbol ∧
      p.holdSide = (if side = "buy" then "short" else "long"))) :
    p ∈ (closeOpposingPositions env st symbol side).1.positions := by
  rw [closeOpposingPositions_state, cancelOrdersLoop_positions]
  exact closePositionsLoop_positions_mem env symbol _ st.positions st p hp hne

/-- When every pending order for the symbol already has the requested
side, the reconciliation pass leaves the pending orders untouched. -/
theorem closeOpposingPositions_orders_of_sameside (env : Env) (st : MarketState)
    (symbol side : String)
    (h : ∀ o ∈ st.orders, o.symbol = symbol → o.side = side) :
    (closeOpposingPositions env st symbol side).1.orders = st.orders := by
  rw [closeOpposingPositions_state, cancelOrdersLoop_id_of_no_match, closePositionsLoop_orders]
  rw [closePositionsLoop_orders]
  rintro o ho ⟨hside, hsym⟩
  exact hside (h o ho hsym)

/-! ## C1: idempotent skip -/

/-- Counterexample for C1: a state with a same-side (`buy`) pending
order for the symbol on which `placeTrade` nevertheless submits a new
order — because an opposing (`sell`) order is also pending, the
reconciliation's `cancelAllOrders` wipes *all* orders for the symbol,
including the same-side one, so the duplicate-order check then passes
and `futuresSubmitOrder` is called once. -/
theorem placeTrade_submits_despite_sameside_order :
    ((⟨"SBTCSUSDT", "buy"⟩ : PendingOrder) ∈
      (⟨[], [⟨"SBTCSUSDT", "buy"⟩, ⟨"SBTCSUSDT", "sell"⟩]⟩ : MarketState).orders) ∧
    (placeTrade ⟨[], false, false⟩
        ⟨[], [⟨"SBTCSUSDT", "buy"⟩, ⟨"SBTCSUSDT", "sell"⟩]⟩
        ⟨"SBTCSUSDT", 100, "buy"⟩).2.1.countP TradeAction.isSubmit = 1 := by
  constructor
  · simp
  · simp [placeTrade, closeOpposingPositions, closePositionsLoop, cancelOrdersLoop,
      cancelAllOrders, closeOpenPositions, TradeAction.isSubmit]

/-- C1 (amended): an existing same-side open position always suppresses
the new order (`placeTrade` returns without calling
`futuresSubmitOrder`); an existing same-side pending order suppresses
it provided no opposing-side pending order for the symbol is also
present — otherwise the reconciliation pass's cancel-all removes the
same-side order as well and a new order is submitted. -/
theorem placeTrade_idempotent_skip (env : Env) (st : MarketState) (sig : Signal) :
    ((∃ p ∈ st.positions, p.symbol = sig.symbol ∧
        p.holdSide = (if sig.side = "buy" then "long" else "short")) →
      (placeTrade env st sig).2.2 = Except.ok none ∧
        (placeTrade env st sig).2.1.countP TradeAction.isSubmit = 0) ∧
    ((∃ o ∈ st.orders, o.symbol = sig.symbol ∧ o.side = sig.side) →
      (∀ o ∈ st.orders, o.symbol = sig.symbol → o.side = sig.side) →
      (placeTrade env st sig).2.2 = Except.ok none ∧
        (placeTrade env st sig).2.1.countP TradeAction.isSubmit = 0) := by
  constructor
  · rintro ⟨p, hp, hsym, hside⟩
    have hneq : ¬(p.symbol = sig.symbol ∧
        p.holdSide = (if sig.side = "buy" then "short" else "long")) := by
      rintro ⟨-, h2⟩
      rw [hside] at h2
      by_cases hb : sig.side = "buy"
      · rw [if_pos hb, if_pos hb] at h2
        exact absurd h2 (by decide)
      · rw [if_neg hb, if_neg hb] at h2
        exact absurd h2 (by decide)
    have hmem := closeOpposingPositions_positions_mem env st sig.symbol sig.side p hp hneq
    have hany : ((closeOpposingPositions env st sig.symbol sig.side).1.positions.any
        (fun pos => decide (pos.holdSide = (if sig.side = "buy" then "long" else "short") ∧
          pos.symbol = sig.symbol))) = true :=
      List.any_eq_true.mpr ⟨p, hmem, by simp [hside, hsym]⟩
    simp only [placeTrade]
    rw [if_pos hany]
    exact ⟨rfl, closeOpposingPositions_countP_submit env st sig.symbol sig.side⟩
  · rintro ⟨o, ho, hsym, hside⟩ hall
    have horders := closeOpposingPositions_orders_of_sameside env st sig.symbol sig.side hall
    by_cases hpos : ((closeOpposingPositions env st sig.symbol sig.side).1.positions.any
        (fun pos => decide (pos.holdSide = (if sig.side = "buy" then "long" else "short") ∧
          pos.symbol = sig.symbol))) = true
    · simp only [placeTrade]
      rw [if_pos hpos]
      exact ⟨rfl, closeOpposingPositions_countP_submit env st sig.symbol sig.side⟩
    · have horder : ((closeOpposingPositions env st sig.symbol sig.side).1.orders.any
          (fun order => decide (order.side = sig.side ∧ order.symbol = sig.symbol))) = true := by
        rw [horders]
        exact List.any_eq_true.mpr ⟨o, ho, by simp [hside, hsym]⟩
      simp only [placeTrade]
      rw [if_neg hpos, if_pos horder]
      exact ⟨rfl, closeOpposingPositions_countP_submit env st sig.symbol sig.side⟩

/-- Witness for C1: with an existing long position and a buy signal,
`placeTrade` returns without submitting; likewise with only a same-side
pending order. -/
theorem placeTrade_idempotent_skip_witness :
    ((placeTrade ⟨[], false, false⟩ ⟨[⟨"S", "long"⟩], []⟩ ⟨"S", 100, "buy"⟩).2.2 =
        Except.ok none ∧
      (placeTrade ⟨[], false, false⟩ ⟨[⟨"S", "long"⟩], []⟩
          ⟨"S", 100, "buy"⟩).2.1.countP TradeAction.isSubmit = 0) ∧
    ((placeTrade ⟨[], false, false⟩ ⟨[], [⟨"S", "buy"⟩]⟩ ⟨"S", 100, "buy"⟩).2.2 =
        Except.ok none ∧
      (placeTrade ⟨[], false, false⟩ ⟨[], [⟨"S", "buy"⟩]⟩
          ⟨"S", 100, "buy"⟩).2.1.countP TradeAction.isSubmit = 0) :=
  ⟨(placeTrade_idempotent_skip ⟨[], false, false⟩ ⟨[⟨"S", "long"⟩], []⟩ ⟨"S", 100, "buy"⟩).1
      ⟨⟨"S", "long"⟩, by simp, rfl, by simp⟩,
    (placeTrade_idempotent_skip ⟨[], false, false⟩ ⟨[], [⟨"S", "buy"⟩]⟩ ⟨"S", 100, "buy"⟩).2
      ⟨⟨"S", "buy"⟩, by simp, rfl, rfl⟩
      (by rintro o ho - ; simp at ho; simp [ho])⟩

/-! ## C2: reconciliation precedes submission -/

/-- The trace of `placeTrade` always starts with the full trace of the
reconciliation pass. -/
theorem placeTrade_trace_form (env : Env) (st : MarketState) (sig : Signal) :
    ∃ rest : List TradeAction,
      (placeTrade env st sig).2.1 =
        (closeOpposingPositions env st sig.symbol sig.side).2 ++ rest := by
  simp only [placeTrade]
  repeat' split
  all_goals first
    | exact ⟨_, rfl⟩
    | exact ⟨[], (List.append_nil _).symm⟩

/-- C2: whenever the state holds an opposing position for the signal's
symbol (short for a buy, long for a sell), the pipeline's close call
for that position appears in the call trace strictly before every
`futuresSubmitOrder` call: the whole reconciliation pass runs before
the order-submission step. -/
theorem reconcile_closes_before_submit (env : Env) (st : MarketState) (sig : Signal)
    (hp : ∃ p ∈ st.positions, p.symbol = sig.symbol ∧
        p.holdSide = (if sig.side = "buy" then "short" else "long")) :
    ∃ i : ℕ,
      (placeTrade env st sig).2.1[i]? =
        some (TradeAction.closePositionCall sig.symbol
          (if sig.side = "buy" then "short" else "long")) ∧
      ∀ (j : ℕ) (s sd : String),
        (placeTrade env st sig).2.1[j]? = some (TradeAction.submitOrderCall s sd) →
          i < j := by
  obtain ⟨p, hpm, hsym, hside⟩ := hp
  obtain ⟨rest, hform⟩ := placeTrade_trace_form env st sig
  have hk : 0 < st.positions.countP (fun p =>
      decide (p.holdSide = (if sig.side = "buy" then "short" else "long") ∧
        p.symbol = sig.symbol)) :=
    List.countP_pos_iff.mpr ⟨p, hpm, by simp [hside, hsym]⟩
  have h0 : (closeOpposingPositions env st sig.symbol sig.side).2[0]? =
      some (TradeAction.closePositionCall sig.symbol
        (if sig.side = "buy" then "short" else "long")) := by
    obtain ⟨m, hm⟩ : ∃ m, st.positions.countP (fun p =>
        decide (p.holdSide = (if sig.side = "buy" then "short" else "long") ∧
          p.symbol = sig.symbol)) = m + 1 :=
      ⟨_ - 1, (Nat.succ_pred_eq_of_pos hk).symm⟩
    rw [closeOpposingPositions_trace, hm, List.replicate_succ]
    simp
  have hlen : 0 < (closeOpposingPositions env st sig.symbol sig.side).2.length := by
    rw [closeOpposingPositions_trace, List.length_append, List.length_replicate,
      List.length_replicate]
    omega
  refine ⟨0, ?_, ?_⟩
  · rw [hform, List.getElem?_append_left hlen]
    exact h0
  · intro j s sd hj
    rcases Nat.lt_or_ge j (closeOpposingPositions env st sig.symbol sig.side).2.length
      with hlt | hge
    · exfalso
      rw [hform, List.getElem?_append_left hlt] at hj
      have hmem : TradeAction.submitOrderCall s sd ∈
          (closeOpposingPositions env st sig.symbol sig.side).2 :=
        List.getElem?_mem hj
      rcases closeOpposingPositions_trace_mem env st sig.symbol sig.side _ hmem with h | h <;>
        exact TradeAction.noConfusion h
    · exact lt_of_lt_of_le hlen hge

/-- Witness for C2: reconciling a buy signal against a short position
actually yields such an ordering of the calls. -/
theorem reconcile_closes_before_submit_witness :
    ∃ i : ℕ,
      (placeTrade ⟨[], false, false⟩ ⟨[⟨"S", "short"⟩], []⟩ ⟨"S", 100, "buy"⟩).2.1[i]? =
        some (TradeAction.closePositionCall "S" (if "buy" = "buy" then "short" else "long")) ∧
      ∀ (j : ℕ) (s sd : String),
        (placeTrade ⟨[], false, false⟩ ⟨[⟨"S", "short"⟩], []⟩ ⟨"S", 100, "buy"⟩).2.1[j]? =
          some (TradeAction.submitOrderCall s sd) → i < j :=
  reconcile_closes_before_submit ⟨[], false, false⟩ ⟨[⟨"S", "short"⟩], []⟩ ⟨"S", 100, "buy"⟩
    ⟨⟨"S", "short"⟩, by simp, rfl, by simp⟩

/-! ## C6: best-effort reconciliation -/

/-- C6: per-item failures are contained. Even when the flash-close call
for the opposing side of `symbol` fails (is listed in
`env.closeFailures`), the reconciliation pass still issues one close
attempt per matching opposing position (no position aborts the loop),
and for every pending opposing order it still issues the cancel-all
call and ends with no pending order left for the symbol. -/
theorem reconcile_best_effort (env : Env) (st : MarketState) (symbol side : String)
    (_hfail : (symbol, if side = "buy" then "short" else "long") ∈ env.closeFailures) :
    (closeOpposingPositions env st symbol side).2.count
        (TradeAction.closePositionCall symbol (if side = "buy" then "short" else "long")) =
      st.positions.countP (fun p =>
        decide (p.holdSide = (if side = "buy" then "short" else "long") ∧
          p.symbol = symbol)) ∧
    ∀ o ∈ st.orders, o.side ≠ side → o.symbol = symbol →
      TradeAction.cancelAllOrdersCall symbol ∈ (closeOpposingPositions env st symbol side).2 ∧
      ∀ o2 ∈ (closeOpposingPositions env st symbol side).1.orders, o2.symbol ≠ symbol := by
  constructor
  · rw [closeOpposingPositions_trace, List.count_append, List.count_replicate_self]
    have hne : TradeAction.closePositionCall symbol
        (if side = "buy" then "short" else "long") ∉
        List.replicate
          (st.orders.countP (fun o => decide (o.side ≠ side ∧ o.symbol = symbol)))
          (TradeAction.cancelAllOrdersCall symbol) := by
      intro hmem
      exact TradeAction.noConfusion (List.eq_of_mem_replicate hmem)
    rw [List.count_eq_zero.mpr hne]
    omega
  · intro o ho hs hm
    constructor
    · rw [closeOpposingPositions_trace]
      refine List.mem_append.mpr (Or.inr ?_)
      refine List.mem_replicate.mpr ⟨?_, rfl⟩
      have : 0 < st.orders.countP (fun o => decide (o.side ≠ side ∧ o.symbol = symbol)) :=
        List.countP_pos_iff.mpr ⟨o, ho, by simp [hs, hm]⟩
      omega
    · rw [closeOpposingPositions_state]
      have hmid : (closePositionsLoop env symbol (if side = "buy" then "short" else "long")
          st.positions st).1.orders = st.orders :=
        closePositionsLoop_orders env symbol _ st.positions st
      exact cancelOrdersLoop_clears symbol side _ _ o (hmid ▸ ho) hs hm

/-- Witness for C6: with a short position whose flash-close fails and a
pending sell order, the buy-side reconciliation still cancels the
order. -/
theorem reconcile_best_effort_witness :
    TradeAction.cancelAllOrdersCall "S" ∈
      (closeOpposingPositions ⟨[("S", "short")], false, false⟩
        ⟨[⟨"S", "short"⟩], [⟨"S", "sell"⟩]⟩ "S" "buy").2 :=
  ((reconcile_best_effort ⟨[("S", "short")], false, false⟩
      ⟨[⟨"S", "short"⟩], [⟨"S", "sell"⟩]⟩ "S" "buy" (by simp)).2
    ⟨"S", "sell"⟩ (by simp) (by simp) rfl).1

/-! ## C7: order placement aborts on failure -/

/-- C7: if any step of the leverage-set plus order-submit sequence
fails, the whole placement aborts with the error propagated: a
successful non-skip return implies neither call was set to fail and
the submit call is in the trace; when either call fails the result is
never a success carrying an order; and neither call is ever retried
(at most one leverage call and one submit call per invocation). -/
theorem placeTrade_error_propagation (env : Env) (st : MarketState) (sig : Signal) :
    (∀ r : SubmittedOrder, (placeTrade env st sig).2.2 = Except.ok (some r) →
      env.leverageFails = false ∧ env.submitFails = false ∧
        TradeAction.submitOrderCall sig.symbol sig.side ∈ (placeTrade env st sig).2.1) ∧
    ((env.leverageFails = true ∨ env.submitFails = true) →
      (placeTrade env st sig).2.2 = Except.ok none ∨
        (placeTrade env st sig).2.2 = Except.error ()) ∧
    (placeTrade env st sig).2.1.countP TradeAction.isSetLeverage ≤ 1 ∧
    (placeTrade env st sig).2.1.countP TradeAction.isSubmit ≤ 1 := by
  have hsub := closeOpposingPositions_countP_submit env st sig.symbol sig.side
  have hlev := closeOpposingPositions_countP_setLeverage env st sig.symbol sig.side
  refine ⟨?_, ?_, ?_, ?_⟩
  · simp only [placeTrade]
    repeat' split
    all_goals first
      | (intro r hr; simp at hr; done)
      | (rename_i hL hS
         intro r hr
         refine ⟨by simpa using hL, by simpa using hS,
           List.mem_append.mpr (Or.inr (by simp))⟩)
  · simp only [placeTrade]
    repeat' split
    all_goals first
      | exact fun _ => Or.inl rfl
      | exact fun _ => Or.inr rfl
      | (rename_i hL hS
         rintro (h | h)
         · exact absurd h (by simpa using hL)
         · exact absurd h (by simpa using hS))
  · simp only [placeTrade]
    repeat' split
    all_goals simp [List.countP_append, hlev, TradeAction.isSetLeverage, TradeAction.isSubmit]
  · simp only [placeTrade]
    repeat' split
    all_goals simp [List.countP_append, hsub, TradeAction.isSetLeverage, TradeAction.isSubmit]

/-- Witness for C7: with no injected failures and an empty state,
`placeTrade` succeeds, and the theorem confirms both failure flags are
off and the submit call was made. -/
theorem placeTrade_error_propagation_witness :
    (⟨[], false, false⟩ : Env).leverageFails = false ∧
      (⟨[], false, false⟩ : Env).submitFails = false ∧
      TradeAction.submitOrderCall "S" "buy" ∈
        (placeTrade ⟨[], false, false⟩ ⟨[], []⟩ ⟨"S", 100, "buy"⟩).2.1 :=
  (placeTrade_error_propagation ⟨[], false, false⟩ ⟨[], []⟩ ⟨"S", 100, "buy"⟩).1
    ⟨"S", "buy", 100, 105, 95⟩
    (by norm_num [placeTrade, closeOpposingPositions, closePositionsLoop, cancelOrdersLoop])

/-! ## C8: webhook status codes -/

/-- When flash-close calls do not fail, the webhook's position-closing
loop always succeeds. -/
theorem closePositionsLoopW_ok (env : EnvW) (symbolJ : JVal)
    (hf : env.flashCloseFails = false) (ps : List PositionW) (st : MarketStateW) :
    ∃ st2, (closePositionsLoopW env symbolJ ps st).2 = Except.ok st2 := by
  induction ps generalizing st with
  | nil => exact ⟨st, rfl⟩
  | cons p ps ih =>
    simp only [closePositionsLoopW]
    split
    · rw [if_neg (by simp [hf])]
      exact ih _
    · exact ih st

/-- When neither the flash-close nor the cancel call fails,
`manageTradingAssets` succeeds. -/
theorem manageTradingAssets_ok (env : EnvW) (st : MarketStateW) (symbolJ : JVal)
    (hf : env.flashCloseFails = false) (hc : env.cancelFails = false) :
    ∃ st2, (manageTradingAssets env st symbolJ).2 = Except.ok st2 := by
  obtain ⟨st1, h1⟩ := closePositionsLoopW_ok env symbolJ hf st.positions st
  simp only [manageTradingAssets, closeOpenPositionsW, h1, futuresCancelAllOrdersW, hc]
  exact ⟨_, rfl⟩

/-- C8: the `POST /webhook` handler answers 400 (submitting nothing)
when a required field (`symbol`, `price`, `size`, `orderType`,
`marginCoin`, `side`) is missing from the body, 200 with the exchange
order result when reconciliation and placement both succeed, and 500
when the placement step fails. -/
theorem webhook_response_codes (env : EnvW) (st : MarketStateW) (b : WebhookBody) :
    ((b.symbol = JVal.undef ∨ b.price = JVal.undef ∨ b.size = JVal.undef ∨
        b.orderType = JVal.undef ∨ b.marginCoin = JVal.undef ∨ b.side = JVal.undef) →
      (webhookHandler env st b).1.1 = 400 ∧
        (webhookHandler env st b).2.countP WAction.isSubmit = 0) ∧
    (b.valid = true → env.flashCloseFails = false → env.cancelFails = false →
      env.leverageFails = false → env.submitFails = false →
      (webhookHandler env st b).1 = (200, WebhookResp.ok
        { symbol := b.symbol, size := b.size, price := b.price, side := b.side,
          orderType := b.orderType, marginCoin := b.marginCoin,
          presetTakeProfitPrice := b.presetTakeProfitPrice,
          presetStopLossPrice := b.presetStopLossPrice })) ∧
    (b.valid = true → env.flashCloseFails = false → env.cancelFails = false →
      (env.leverageFails = true ∨ env.submitFails = true) →
      (webhookHandler env st b).1 = (500, WebhookResp.failed)) := by
  refine ⟨?_, ?_, ?_⟩
  · intro h
    have hv : b.valid = false := by
      rcases h with h | h | h | h | h | h <;> simp [WebhookBody.valid, h, JVal.truthy]
    simp [webhookHandler, hv]
  · intro hv hf hc hl hs
    obtain ⟨st2, h2⟩ := manageTradingAssets_ok env st b.symbol hf hc
    simp [webhookHandler, hv, h2, placeTradeW, hl, hs]
  · intro hv hf hc hfail
    obtain ⟨st2, h2⟩ := manageTradingAssets_ok env st b.symbol hf hc
    rcases hfail with hl | hs2
    · simp [webhookHandler, hv, h2, placeTradeW, hl]
    · by_cases hl : env.leverageFails = true
      · simp [webhookHandler, hv, h2, placeTradeW, hl]
      · simp [webhookHandler, hv, h2, placeTradeW, hl, hs2]

/-- Witness for C8: a body missing `symbol` yields 400 with no calls; a
complete body with a healthy exchange yields 200 echoing the order; the
same body with a failing leverage call yields 500. -/
theorem webhook_response_codes_witness :
    (webhookHandler ⟨false, false, false, false⟩ ⟨[], []⟩
        ⟨JVal.undef, JVal.jnum 100, JVal.jnum 1, JVal.jstr "limit", JVal.jstr "USDT",
          JVal.jstr "buy", JVal.jnum 10, JVal.jnum 105, JVal.jnum 95⟩).1.1 = 400 ∧
    (webhookHandler ⟨false, false, false, false⟩ ⟨[], []⟩
        ⟨JVal.jstr "BTCUSDT", JVal.jnum 100, JVal.jnum 1, JVal.jstr "limit",
          JVal.jstr "USDT", JVal.jstr "buy", JVal.jnum 10, JVal.jnum 105,
          JVal.jnum 95⟩).1 =
      (200, WebhookResp.ok
        ⟨JVal.jstr "BTCUSDT", JVal.jnum 1, JVal.jnum 100, JVal.jstr "buy",
          JVal.jstr "limit", JVal.jstr "USDT", JVal.jnum 105, JVal.jnum 95⟩) ∧
    (webhookHandler ⟨false, false, true, false⟩ ⟨[], []⟩
        ⟨JVal.jstr "BTCUSDT", JVal.jnum 100, JVal.jnum 1, JVal.jstr "limit",
          JVal.jstr "USDT", JVal.jstr "buy", JVal.jnum 10, JVal.jnum 105,
          JVal.jnum 95⟩).1 = (500, WebhookResp.failed) :=
  ⟨((webhook_response_codes _ _ _).1 (Or.inl rfl)).1,
    (webhook_response_codes _ _ _).2.1
      (by norm_num [WebhookBody.valid, JVal.truthy]; decide) rfl rfl rfl rfl,
    (webhook_response_codes _ _ _).2.2
      (by norm_num [WebhookBody.valid, JVal.truthy]; decide) rfl rfl (Or.inl rfl)⟩
